import Mathlib

/-!
# Verification of the PHIVOLCS earthquake API core

A shallow embedding of the core logic of `src/index.ts`: the HTML-table
extractor, the TTL-based in-memory cache (`fetchEarthquakes`), and the
query functions (`filterByMagnitude`, `filterByLocation`, top-by-magnitude,
statistics).

Numbers: JavaScript numbers are modelled as `Rat` (all values arising in
this program are finite decimals); timestamps (`Date.now()`) as `Int`
milliseconds.  HTML is modelled at the level of the parsed DOM that the
cheerio traversal actually inspects: a page is an optional matched data
table, a table is a list of rows, a row is a list of `<td>` cells, and a
cell carries its text together with the text of an embedded `<a>` link
when one is present.  JavaScript exceptions are modelled with `Except`,
distinguishing explicitly thrown `Error`s from runtime `TypeError`s.
-/

namespace Phivolcs

/-- Characters treated as whitespace by the `/\s+/` regex (ASCII subset). -/
def jsWhitespace (c : Char) : Bool :=
  c = ' ' || c = '\t' || c = '\n' || c = '\r' || c = '\x0b' || c = '\x0c'

/-- Numeric value of a list of decimal digit characters. -/
def digitsVal (ds : List Char) : Nat :=
  ds.foldl (fun n c => n * 10 + (c.toNat - 48)) 0

/-- Model of JavaScript `parseFloat` on finite decimal literals: skip leading
whitespace, optional sign, integer digits, optional fraction, optional
exponent; the longest numeric prefix is parsed and trailing junk is ignored.
`none` models the `NaN` result on inputs with no parsable numeric prefix. -/
def jsParseFloat (s : String) : Option Rat :=
  let cs := s.data.dropWhile jsWhitespace
  let sign : Rat := if cs.head? = some '-' then -1 else 1
  let cs := if cs.head? = some '-' || cs.head? = some '+' then cs.tail else cs
  let intPart := cs.takeWhile Char.isDigit
  let cs := cs.dropWhile Char.isDigit
  let fracPart := if cs.head? = some '.' then cs.tail.takeWhile Char.isDigit else []
  let cs := if cs.head? = some '.' then cs.tail.dropWhile Char.isDigit else cs
  if intPart.isEmpty && fracPart.isEmpty then
    none
  else
    let mantissa : Rat :=
      sign * ((digitsVal intPart : Rat) + (digitsVal fracPart : Rat) / (10 : Rat) ^ fracPart.length)
    let exponent : Int :=
      if cs.head? = some 'e' || cs.head? = some 'E' then
        let ecs := cs.tail
        let esign : Int := if ecs.head? = some '-' then -1 else 1
        let ecs := if ecs.head? = some '-' || ecs.head? = some '+' then ecs.tail else ecs
        let eds := ecs.takeWhile Char.isDigit
        if eds.isEmpty then 0 else esign * (digitsVal eds : Nat)
      else 0
    some (mantissa * (10 : Rat) ^ exponent)

/-- `parseMagnitude` (index.ts:47-50): `parseFloat`, with `NaN` mapped to `0`. -/
def parseMagnitude (mag : String) : Rat :=
  (jsParseFloat mag).getD 0

/-- JavaScript `String.prototype.trim` on a character list: leading and
trailing whitespace removed. -/
def jsTrimList (cs : List Char) : List Char :=
  ((cs.dropWhile jsWhitespace).reverse.dropWhile jsWhitespace).reverse

/-- JavaScript `s.trim()`. -/
def jsTrim (s : String) : String :=
  String.mk (jsTrimList s.data)

/-- JavaScript `s.split(" - ")` over the character list: the fields delimited
by successive non-overlapping occurrences of the three-character separator,
scanned left to right.  `acc` holds the current field, reversed. -/
def splitDateTime : List Char → List Char → List (List Char)
  | ' ' :: '-' :: ' ' :: rest, acc => acc.reverse :: splitDateTime rest []
  | c :: cs, acc => splitDateTime cs (c :: acc)
  | [], acc => [acc.reverse]

/-- One step of `.replace(/\s+/g, ' ')`: each maximal whitespace run becomes a
single space.  `prevWs` records whether the previous character was part of a
whitespace run already replaced. -/
def collapseWsAux : List Char → Bool → List Char
  | [], _ => []
  | c :: cs, prevWs =>
    if jsWhitespace c then
      if prevWs then collapseWsAux cs true else ' ' :: collapseWsAux cs true
    else c :: collapseWsAux cs false

/-- `.replace(/\s+/g, ' ').trim()` applied to the location cell (index.ts:108). -/
def normalizeWs (s : String) : String :=
  String.mk (jsTrimList (collapseWsAux s.data false))

/-- A `<td>` cell: its text content, and the text of the `<a>` inside it when
the cell contains a link (`$cols.eq(0).find('a')`). -/
structure Cell where
  text : String
  linkText : Option String
deriving DecidableEq

/-- The fallback cell an out-of-range `eq(i)` would produce (empty selection). -/
def defaultCell : Cell := { text := "", linkText := none }

/-- The parsed earthquake record (the `EarthquakeSchema` object, index.ts:13-22). -/
structure EarthquakeData where
  date : String
  time : String
  latitude : String
  longitude : String
  depth : String
  magnitude : String
  location : String
  magnitudeNumeric : Rat
deriving DecidableEq

/-- JavaScript exceptions: `thrown` for explicit `throw new Error(msg)`,
`typeError` for runtime `TypeError`s raised by the interpreter. -/
inductive JsError where
  | thrown (msg : String)
  | typeError (msg : String)
deriving DecidableEq

/-- The date-time split (index.ts:93-96): the link text of cell 0, trimmed and
split on the literal `" - "`; no link yields the empty list. -/
def rowDateTime (cells : List Cell) : List String :=
  match (cells.getD 0 defaultCell).linkText with
  | some t => (splitDateTime (jsTrimList t.data) []).map String.mk
  | none => []

/-- The record object built from one table row (index.ts:93-110), before the
required-field validation. -/
def buildRecord (cells : List Cell) : EarthquakeData :=
  let parts := rowDateTime cells
  let magnitudeStr := jsTrim (cells.getD 4 defaultCell).text
  { date := jsTrim (parts.getD 0 "")
    time := jsTrim (parts.getD 1 "")
    latitude := jsTrim (cells.getD 1 defaultCell).text
    longitude := jsTrim (cells.getD 2 defaultCell).text
    depth := jsTrim (cells.getD 3 defaultCell).text
    magnitude := magnitudeStr
    location := normalizeWs (cells.getD 5 defaultCell).text
    magnitudeNumeric := parseMagnitude magnitudeStr }

/-- The required-field check (index.ts:113): JavaScript truthiness of the four
string fields, i.e. all of them non-empty. -/
def recordValid (e : EarthquakeData) : Bool :=
  !e.date.isEmpty && !e.time.isEmpty && !e.magnitude.isEmpty && !e.location.isEmpty

/-- Processing of a single `<tr>` (index.ts:87-116): rows with fewer than 6
cells are skipped, then the record is built and kept only if valid. -/
def parseRow (cells : List Cell) : Option EarthquakeData :=
  if cells.length < 6 then none
  else
    let e := buildRecord cells
    if recordValid e then some e else none

/-- A row qualifies when it has at least 6 cells and its derived date, time,
magnitude and location are all non-empty after trimming. -/
def qualifies (cells : List Cell) : Bool :=
  decide (6 ≤ cells.length) && recordValid (buildRecord cells)

/-- The part of the fetched page that the scraper inspects: the rows of the
matched `table.MsoNormalTable`, or `none` when no such table exists
(`$table.length === 0`). -/
structure Page where
  table : Option (List (List Cell))
deriving DecidableEq

/-- The extraction phase of `fetchEarthquakes` (index.ts:79-120): locate the
data table, collect the valid rows, and fail when the table is missing or no
valid record survives. -/
def extract (page : Page) : Except JsError (List EarthquakeData) :=
  match page.table with
  | none => .error (.thrown "Earthquake data table not found on page")
  | some rows =>
    let earthquakes := rows.filterMap parseRow
    if earthquakes.length = 0 then
      .error (.thrown "No valid earthquake data found")
    else
      .ok earthquakes

/-- A cache entry (index.ts:26-29): the record list plus its capture timestamp. -/
structure CacheEntry where
  data : List EarthquakeData
  timestamp : Int
deriving DecidableEq

/-- `CACHE_TTL_MS = 5 * 60 * 1000` (index.ts:35). -/
def CACHE_TTL_MS : Int := 5 * 60 * 1000

/-- `isCacheValid` (index.ts:57-60), with the global cache slot and
`Date.now()` passed explicitly. -/
def isCacheValid (cache : Option CacheEntry) (now : Int) : Bool :=
  match cache with
  | none => false
  | some c => now - c.timestamp < CACHE_TTL_MS

deriving instance DecidableEq for Except

/-- Result of one `fetchEarthquakes` call: the value returned or error thrown,
the cache slot after the call, and whether an upstream network request was
issued. -/
structure FetchResult where
  result : Except JsError (List EarthquakeData)
  cache : Option CacheEntry
  fetched : Bool
deriving DecidableEq

/-- The fetch-and-extract attempt inside the `try` block: the result of
`axios.get` (a page, or the network error it threw) composed with the
extraction phase. -/
def attemptOf (response : Except JsError Page) : Except JsError (List EarthquakeData) :=
  match response with
  | .ok page => extract page
  | .error e => .error e

/-- `fetchEarthquakes` (index.ts:62-137) as a state transition on the cache
slot.  `response` stands for the outcome of the `axios.get` call: the fetched
page on success, or the network error it threw.  The extraction phase runs
inside the same `try`, so the attempt fails when either the fetch or the
extraction fails; on failure the stale cache is served when present, and the
error propagates (the spec's `DataUnavailableError`) only when the cache is
empty. -/
def fetchEarthquakes (forceRefresh : Bool) (cache : Option CacheEntry) (now : Int)
    (response : Except JsError Page) : FetchResult :=
  if !forceRefresh && isCacheValid cache now then
    { result := .ok (match cache with | some c => c.data | none => [])
      cache := cache
      fetched := false }
  else
    match attemptOf response with
    | .ok earthquakes =>
        { result := .ok earthquakes
          cache := some { data := earthquakes, timestamp := now }
          fetched := true }
    | .error e =>
        match cache with
        | some c => { result := .ok c.data, cache := some c, fetched := true }
        | none => { result := .error e, cache := none, fetched := true }

/-- Two sequential `fetchEarthquakes(false)` calls, returning the total number
of upstream fetches performed. -/
def twoCallFetchCount (cache0 : Option CacheEntry) (t1 t2 : Int)
    (r1 r2 : Except JsError Page) : Nat :=
  let o1 := fetchEarthquakes false cache0 t1 r1
  let o2 := fetchEarthquakes false o1.cache t2 r2
  (if o1.fetched then 1 else 0) + (if o2.fetched then 1 else 0)

/-- `k` simultaneous `fetchEarthquakes(false)` calls against one shared cache
slot.  Under the single-threaded event loop each call runs synchronously from
entry through the cache-validity check (index.ts:64) up to initiating
`axios.get` (the first `await`, index.ts:69); the cache slot is only written
at index.ts:123, after that `await`, so during the check phase all `k`
simultaneously-arrived calls observe the same cache state.  The count of
calls whose `fetched` flag is set is therefore the number of upstream
requests issued. -/
def simultaneousFetchCount (k : Nat) (cache : Option CacheEntry) (now : Int)
    (response : Except JsError Page) : Nat :=
  ((List.replicate k (fetchEarthquakes false cache now response)).filter
    (fun r => r.fetched)).length

/-- `filterByMagnitude` (index.ts:139-144).  The upper-bound test is guarded by
JavaScript `!maxMag`, which is true both when `maxMag` is `undefined` and when
it is `0`. -/
def filterByMagnitude (earthquakes : List EarthquakeData) (minMag : Rat)
    (maxMag : Option Rat) : List EarthquakeData :=
  earthquakes.filter fun eq =>
    let mag := eq.magnitudeNumeric
    decide (minMag ≤ mag) &&
      ((match maxMag with | none => true | some m => decide (m = 0)) ||
        decide (mag ≤ maxMag.getD 0))

/-- JavaScript `String.prototype.toLowerCase` (ASCII model). -/
def jsToLower (s : String) : String :=
  String.mk (s.data.map Char.toLower)

/-- JavaScript `haystack.includes(needle)`: substring containment. -/
def jsIncludes (hay needle : String) : Bool :=
  decide (needle.data <:+: hay.data)

/-- `filterByLocation` (index.ts:146-151). -/
def filterByLocation (earthquakes : List EarthquakeData) (location : String) :
    List EarthquakeData :=
  let searchTerm := jsToLower location
  earthquakes.filter fun eq => jsIncludes (jsToLower eq.location) searchTerm

/-- The `/earthquakes/top/:count` handler's core (index.ts:257-259):
`[...earthquakes].sort((a, b) => b.magnitudeNumeric - a.magnitudeNumeric)
.slice(0, count)`.  JavaScript `Array.prototype.sort` is a stable sort; with
the comparator `(a, b) => b.magnitudeNumeric - a.magnitudeNumeric` it orders
by descending `magnitudeNumeric`, keeping ties in their original relative
order, which is exactly the stable `mergeSort` under `magDescLe`: `a` may
precede `b` when `b.magnitudeNumeric ≤ a.magnitudeNumeric`. -/
def magDescLe (a b : EarthquakeData) : Bool :=
  b.magnitudeNumeric ≤ a.magnitudeNumeric

/-- The descending-by-magnitude sort and truncation of the top-N handler
(index.ts:257-259). -/
def topByMagnitude (earthquakes : List EarthquakeData) (count : Nat) :
    List EarthquakeData :=
  (earthquakes.mergeSort magDescLe).take count

/-- JavaScript `Math.max(...xs)`: `none` stands for the `-Infinity` result on
an empty spread (not representable in `Rat`; never observed by this program,
see `computeStats`). -/
def spreadMax : List Rat → Option Rat
  | [] => none
  | x :: xs => some (xs.foldl max x)

/-- JavaScript `Math.min(...xs)`: `none` stands for `Infinity` on an empty
spread. -/
def spreadMin : List Rat → Option Rat
  | [] => none
  | x :: xs => some (xs.foldl min x)

/-- `xs.reduce((a, b) => a + b, 0)`. -/
def jsSum (xs : List Rat) : Rat :=
  xs.foldl (fun a b => a + b) 0

/-- `earthquakes.reduce((prev, curr) =>
curr.magnitudeNumeric > prev.magnitudeNumeric ? curr : prev)` on a non-empty
array: `init` is the first element, folded against the rest. -/
def strongestReduce (init : EarthquakeData) (rest : List EarthquakeData) :
    EarthquakeData :=
  rest.foldl
    (fun prev curr =>
      if prev.magnitudeNumeric < curr.magnitudeNumeric then curr else prev)
    init

/-- The max/min/average triple of the stats payload. -/
structure NumStats where
  max : Rat
  min : Rat
  average : Rat
deriving DecidableEq

/-- The stats object built by the `/earthquakes/stats` handler. -/
structure Stats where
  total_count : Nat
  magnitude : NumStats
  depth : NumStats
  most_recent : EarthquakeData
  strongest : EarthquakeData
deriving DecidableEq

/-- The statistics computation of the `/earthquakes/stats` handler
(index.ts:377-396).  On an empty record list the construction of the stats
object aborts: `earthquakes.reduce(...)` for `strongest` (index.ts:393) has
no initial value and raises a `TypeError` on an empty array, so no stats
value is produced (the earlier `-Infinity`/`Infinity`/`NaN` intermediates
for max/min/average never escape); there is no explicit empty-dataset
check in the code. -/
def computeStats (earthquakes : List EarthquakeData) : Except JsError Stats :=
  match earthquakes with
  | [] => .error (.typeError "Reduce of empty array with no initial value")
  | e0 :: rest =>
    let eqs := e0 :: rest
    let magnitudes := eqs.map fun eq => eq.magnitudeNumeric
    let depths := eqs.map fun eq => parseMagnitude eq.depth
    .ok
      { total_count := eqs.length
        magnitude :=
          { max := (spreadMax magnitudes).getD 0
            min := (spreadMin magnitudes).getD 0
            average := jsSum magnitudes / (magnitudes.length : Rat) }
        depth :=
          { max := (spreadMax depths).getD 0
            min := (spreadMin depths).getD 0
            average := jsSum depths / (depths.length : Rat) }
        most_recent := e0
        strongest := strongestReduce e0 rest }

/-! ## Concrete fixtures -/

/-- A well-formed table row: a date-time link in cell 0, plain text in the
remaining five cells. -/
def sampleRow : List Cell :=
  { text := "", linkText := some "01 Jan 2025 - 10:00 AM" } ::
    List.replicate 5 { text := "4.5", linkText := none }

/-- A header-noise row with fewer than 6 cells. -/
def shortRow : List Cell := [{ text := "Date - Time", linkText := none }]

/-- A concrete earthquake record with the given magnitude and location. -/
def mkQuake (magStr : String) (mag : Rat) (loc : String) : EarthquakeData :=
  { date := "01 Jan 2025", time := "10:00 AM", latitude := "13.77 N",
    longitude := "120.91 E", depth := "10 km", magnitude := magStr,
    location := loc, magnitudeNumeric := mag }

/-! ## Extractor lemmas -/

/-- A row is kept by `parseRow` exactly when it qualifies, and then it
contributes the built record. -/
theorem parseRow_eq_qualifies (cells : List Cell) :
    parseRow cells = if qualifies cells then some (buildRecord cells) else none := by
  unfold parseRow qualifies
  by_cases h : cells.length < 6
  · have h6 : ¬ (6 ≤ cells.length) := Nat.not_le.mpr h
    simp [h, h6]
  · have h6 : 6 ≤ cells.length := Nat.not_lt.mp h
    simp [h, h6]

/-- The extractor's row scan keeps exactly the qualifying rows, in order,
each contributing its whole built record. -/
theorem filterMap_parseRow (rows : List (List Cell)) :
    rows.filterMap parseRow = (rows.filter qualifies).map buildRecord := by
  induction rows with
  | nil => rfl
  | cons r rs ih =>
    rw [List.filterMap_cons, List.filter_cons, parseRow_eq_qualifies]
    by_cases h : qualifies r
    · simp [h, ih]
    · simp [h, ih]

/-! ## Claim theorems -/

/-- **C1.** When the fetch-and-extract attempt fails (and the cache-hit fast
path was not taken, so an attempt happened at all): if a previous snapshot is
cached, its record sequence is returned unchanged, nothing is raised, and the
cache slot is left untouched; if no snapshot is cached, the failure
propagates (the spec's `DataUnavailableError`). -/
theorem fetchEarthquakes_failure_spec
    (forceRefresh : Bool) (cache : Option CacheEntry) (now : Int)
    (response : Except JsError Page) (e : JsError)
    (hbranch : (!forceRefresh && isCacheValid cache now) = false)
    (hfail : attemptOf response = .error e) :
    (∀ c, cache = some c →
        (fetchEarthquakes forceRefresh cache now response).result = .ok c.data ∧
        (fetchEarthquakes forceRefresh cache now response).cache = some c) ∧
    (cache = none →
        (fetchEarthquakes forceRefresh cache now response).result = .error e ∧
        (fetchEarthquakes forceRefresh cache now response).cache = none) := by
  unfold fetchEarthquakes
  rw [hbranch, hfail]
  simp only [Bool.false_eq_true, if_false]
  constructor
  · intro c hc
    subst hc
    exact ⟨rfl, rfl⟩
  · intro hc
    subst hc
    exact ⟨rfl, rfl⟩

/-- Witness for C1 at a concrete input: a stale cached snapshot, a network
timeout, and both branches of the conclusion. -/
theorem fetchEarthquakes_failure_witness :
    (fetchEarthquakes false
        (some { data := [mkQuake "4.5" (9/2) "Batangas"], timestamp := 0 })
        (CACHE_TTL_MS + 1) (.error (.thrown "timeout of 15000ms exceeded"))).result
      = .ok [mkQuake "4.5" (9/2) "Batangas"] ∧
    (fetchEarthquakes false
        (some { data := [mkQuake "4.5" (9/2) "Batangas"], timestamp := 0 })
        (CACHE_TTL_MS + 1) (.error (.thrown "timeout of 15000ms exceeded"))).cache
      = some { data := [mkQuake "4.5" (9/2) "Batangas"], timestamp := 0 } :=
  (fetchEarthquakes_failure_spec false
      (some { data := [mkQuake "4.5" (9/2) "Batangas"], timestamp := 0 })
      (CACHE_TTL_MS + 1) (.error (.thrown "timeout of 15000ms exceeded"))
      (.thrown "timeout of 15000ms exceeded") (by decide) rfl).1 _ rfl

/-- **C4.** With no matching data table, extraction fails with the
table-not-found kind; with a table but no qualifying row, it fails with the
no-valid-records kind; extraction never returns an empty sequence. -/
theorem extract_error_kinds :
    (∀ page : Page, page.table = none →
        extract page = .error (.thrown "Earthquake data table not found on page")) ∧
    (∀ rows : List (List Cell), (∀ r ∈ rows, qualifies r = false) →
        extract { table := some rows }
          = .error (.thrown "No valid earthquake data found")) ∧
    (∀ (page : Page) (eqs : List EarthquakeData), extract page = .ok eqs → eqs ≠ []) := by
  refine ⟨?_, ?_, ?_⟩
  · intro page h
    unfold extract
    rw [h]
  · intro rows h
    have hfil : rows.filter qualifies = [] :=
      List.filter_eq_nil_iff.mpr fun a ha => by simp [h a ha]
    have hnil : rows.filterMap parseRow = [] := by
      rw [filterMap_parseRow, hfil]
      rfl
    simp [extract, hnil]
  · intro page eqs h
    unfold extract at h
    cases hp : page.table with
    | none => rw [hp] at h; cases h
    | some rows =>
      rw [hp] at h
      dsimp only at h
      by_cases hz : (rows.filterMap parseRow).length = 0
      · rw [if_pos hz] at h; cases h
      · rw [if_neg hz] at h
        injection h with heq
        intro hnil
        exact hz (by rw [heq, hnil]; rfl)

/-- Witness for C4: the three conclusions at concrete pages (no table; a
table whose rows are one header row and one empty row; a successful page). -/
theorem extract_error_kinds_witness :
    extract { table := none }
      = .error (.thrown "Earthquake data table not found on page") ∧
    extract { table := some [shortRow, []] }
      = .error (.thrown "No valid earthquake data found") ∧
    [buildRecord sampleRow] ≠ ([] : List EarthquakeData) :=
  ⟨extract_error_kinds.1 { table := none } rfl,
   extract_error_kinds.2.1 [shortRow, []] (by decide),
   extract_error_kinds.2.2 { table := some [sampleRow] } [buildRecord sampleRow] rfl⟩

/-- **C5.** With `forceRefresh = false` and a cached snapshot younger than the
TTL, `fetchEarthquakes` returns the cached sequence, performs no fetch, and
leaves the cache unchanged; consequently two such calls within one TTL window
starting from an empty cache perform exactly one fetch in total. -/
theorem cache_hit_no_fetch :
    (∀ (c : CacheEntry) (now : Int) (resp : Except JsError Page),
        now - c.timestamp < CACHE_TTL_MS →
        (fetchEarthquakes false (some c) now resp).result = .ok c.data ∧
        (fetchEarthquakes false (some c) now resp).fetched = false ∧
        (fetchEarthquakes false (some c) now resp).cache = some c) ∧
    (∀ (t1 t2 : Int) (r1 r2 : Except JsError Page) (eqs : List EarthquakeData),
        attemptOf r1 = .ok eqs → t2 - t1 < CACHE_TTL_MS →
        twoCallFetchCount none t1 t2 r1 r2 = 1) := by
  have hvalid : ∀ (c : CacheEntry) (now : Int), now - c.timestamp < CACHE_TTL_MS →
      (!false && isCacheValid (some c) now) = true := by
    intro c now h
    simp [isCacheValid, h]
  have hhit : ∀ (c : CacheEntry) (now : Int) (resp : Except JsError Page),
      now - c.timestamp < CACHE_TTL_MS →
      fetchEarthquakes false (some c) now resp
        = { result := .ok c.data, cache := some c, fetched := false } := by
    intro c now resp h
    unfold fetchEarthquakes
    rw [hvalid c now h]
    simp
  constructor
  · intro c now resp h
    rw [hhit c now resp h]
    exact ⟨rfl, rfl, rfl⟩
  · intro t1 t2 r1 r2 eqs hok h
    have h1 : fetchEarthquakes false none t1 r1
        = { result := .ok eqs, cache := some { data := eqs, timestamp := t1 },
            fetched := true } := by
      unfold fetchEarthquakes
      rw [hok]
      simp [isCacheValid]
    have h2 := hhit { data := eqs, timestamp := t1 } t2 r2 h
    unfold twoCallFetchCount
    simp only [h1, h2]
    simp

/-- Witness for C5: a concrete cache hit, and a concrete pair of calls whose
total fetch count is one. -/
theorem cache_hit_no_fetch_witness :
    (fetchEarthquakes false
        (some { data := [mkQuake "2.1" (21/10) "Davao"], timestamp := 100 })
        200 (.error (.thrown "net"))).fetched = false ∧
    twoCallFetchCount none 0 1000
      (.ok { table := some [sampleRow] }) (.ok { table := none }) = 1 :=
  ⟨(cache_hit_no_fetch.1 { data := [mkQuake "2.1" (21/10) "Davao"], timestamp := 100 }
      200 (.error (.thrown "net")) (by decide)).2.1,
   cache_hit_no_fetch.2 0 1000 (.ok { table := some [sampleRow] })
     (.ok { table := none }) [buildRecord sampleRow] rfl (by decide)⟩

/-- **C2, counterexample.** With `max = 0` the filter does not restrict the
output to records of magnitude `0`: a magnitude-5 record passes, because the
JavaScript guard `!maxMag` treats `0` as absent. -/
theorem filterByMagnitude_maxZero_counterexample :
    filterByMagnitude [mkQuake "5.0" 5 "Calatagan, Batangas"] 0 (some 0)
      = [mkQuake "5.0" 5 "Calatagan, Batangas"] ∧
    (mkQuake "5.0" 5 "Calatagan, Batangas").magnitudeNumeric ≠ 0 := by
  constructor
  · rfl
  · show (5 : Rat) ≠ 0
    norm_num

/-- **C2, amended.** `filterByMagnitude` keeps exactly the records with
`magnitudeNumeric ≥ min` and, when `max` is supplied and non-zero, also
`≤ max`; when `max` is absent — or equal to `0`, which the `!maxMag` guard
treats the same as absent — no upper bound is applied. -/
theorem filterByMagnitude_spec :
    (∀ (l : List EarthquakeData) (minMag m : Rat), m ≠ 0 →
        filterByMagnitude l minMag (some m)
          = l.filter fun eq =>
              decide (minMag ≤ eq.magnitudeNumeric) && decide (eq.magnitudeNumeric ≤ m)) ∧
    (∀ (l : List EarthquakeData) (minMag : Rat),
        filterByMagnitude l minMag none
          = l.filter fun eq => decide (minMag ≤ eq.magnitudeNumeric)) ∧
    (∀ (l : List EarthquakeData) (minMag : Rat),
        filterByMagnitude l minMag (some 0)
          = l.filter fun eq => decide (minMag ≤ eq.magnitudeNumeric)) := by
  refine ⟨?_, ?_, ?_⟩
  · intro l minMag m hm
    unfold filterByMagnitude
    apply List.filter_congr
    intro a _
    simp [hm]
  · intro l minMag
    unfold filterByMagnitude
    apply List.filter_congr
    intro a _
    simp
  · intro l minMag
    unfold filterByMagnitude
    apply List.filter_congr
    intro a _
    simp

/-- Witness for the amended C2 at concrete inputs: a supplied non-zero upper
bound filters by it, and both no-bound forms keep every record above the
minimum. -/
theorem filterByMagnitude_spec_witness :
    filterByMagnitude [mkQuake "5.0" 5 "A", mkQuake "2.0" 2 "B"] 1 (some 3)
      = [mkQuake "2.0" 2 "B"] ∧
    filterByMagnitude [mkQuake "5.0" 5 "A", mkQuake "2.0" 2 "B"] 1 none
      = [mkQuake "5.0" 5 "A", mkQuake "2.0" 2 "B"] := by
  constructor
  · rw [filterByMagnitude_spec.1 [mkQuake "5.0" 5 "A", mkQuake "2.0" 2 "B"] 1 3 (by norm_num)]
    decide
  · rw [filterByMagnitude_spec.2.1 [mkQuake "5.0" 5 "A", mkQuake "2.0" 2 "B"] 1]
    decide

/-- **C9.** `filterByLocation` keeps exactly the records whose lower-cased
location contains the lower-cased search string, so any two casings of the
same string filter identically. -/
theorem filterByLocation_spec :
    (∀ (l : List EarthquakeData) (s : String) (e : EarthquakeData),
        e ∈ filterByLocation l s ↔
          e ∈ l ∧ (jsToLower s).data <:+: (jsToLower e.location).data) ∧
    (∀ (l : List EarthquakeData) (s1 s2 : String), jsToLower s1 = jsToLower s2 →
        filterByLocation l s1 = filterByLocation l s2) := by
  constructor
  · intro l s e
    simp [filterByLocation, List.mem_filter, jsIncludes]
  · intro l s1 s2 h
    unfold filterByLocation
    rw [h]

/-- Witness for C9: filtering a concrete list with "BATANGAS" and with
"batangas" yields the same result, and a concrete membership instance. -/
theorem filterByLocation_spec_witness :
    filterByLocation [mkQuake "5.0" 5 "Calatagan, Batangas", mkQuake "2.0" 2 "Davao City"]
        "BATANGAS"
      = filterByLocation [mkQuake "5.0" 5 "Calatagan, Batangas", mkQuake "2.0" 2 "Davao City"]
        "batangas" ∧
    (mkQuake "5.0" 5 "Calatagan, Batangas" ∈
        filterByLocation [mkQuake "5.0" 5 "Calatagan, Batangas", mkQuake "2.0" 2 "Davao City"]
          "BATANGAS") := by
  constructor
  · exact filterByLocation_spec.2
      [mkQuake "5.0" 5 "Calatagan, Batangas", mkQuake "2.0" 2 "Davao City"]
      "BATANGAS" "batangas" (by decide)
  · exact (filterByLocation_spec.1
      [mkQuake "5.0" 5 "Calatagan, Batangas", mkQuake "2.0" 2 "Davao City"]
      "BATANGAS" (mkQuake "5.0" 5 "Calatagan, Batangas")).mpr (by decide)

/-- **C10, counterexample.** Fifty simultaneous `getSnapshot(false)` calls
against an empty cache issue fifty upstream fetches, not one: the code has no
single-flight coordination. -/
theorem singleFlight_counterexample :
    simultaneousFetchCount 50 none 0 (.error (.thrown "connect ETIMEDOUT")) = 50 ∧
    simultaneousFetchCount 50 none 0 (.error (.thrown "connect ETIMEDOUT")) ≠ 1 := by
  have h50 : simultaneousFetchCount 50 none 0 (.error (.thrown "connect ETIMEDOUT")) = 50 := rfl
  refine ⟨h50, ?_⟩
  rw [h50]
  decide

/-- **C10, amended.** Simultaneous `getSnapshot(false)` calls arriving while
the cache is invalid each initiate their own upstream fetch: `k` callers
produce `k` fetch invocations. -/
theorem simultaneousFetch_no_single_flight
    (k : Nat) (cache : Option CacheEntry) (now : Int)
    (resp : Except JsError Page) (h : isCacheValid cache now = false) :
    simultaneousFetchCount k cache now resp = k := by
  have hfetched : (fetchEarthquakes false cache now resp).fetched = true := by
    unfold fetchEarthquakes
    rw [h]
    simp only [Bool.and_false, Bool.false_eq_true, if_false]
    cases attemptOf resp with
    | ok eqs => rfl
    | error e => cases cache <;> rfl
  unfold simultaneousFetchCount
  rw [List.filter_replicate_of_pos hfetched, List.length_replicate]

/-- Witness for the amended C10 at a concrete input. -/
theorem simultaneousFetch_no_single_flight_witness :
    simultaneousFetchCount 3 none 12345 (.ok { table := none }) = 3 :=
  simultaneousFetch_no_single_flight 3 none 12345 (.ok { table := none }) rfl

/-- **C7, counterexample.** On the empty record list the statistics
computation fails with the runtime `TypeError` raised by reducing an empty
array with no initial value — not with an explicitly thrown
"EmptyDatasetError" (no such explicit error exists in the code). -/
theorem computeStats_empty_counterexample :
    computeStats [] = .error (.typeError "Reduce of empty array with no initial value") ∧
    computeStats [] ≠ .error (.thrown "EmptyDatasetError") := by
  have h0 : computeStats []
      = .error (.typeError "Reduce of empty array with no initial value") := rfl
  refine ⟨h0, ?_⟩
  rw [h0]
  intro h
  simp at h

/-- **C7, amended.** The statistics computation on an empty record sequence
does fail — no stats value with `NaN` or zero defaults is produced — but via
the runtime `TypeError` from the `strongest` reduce, not an explicit
`EmptyDatasetError`; on every non-empty sequence it succeeds. -/
theorem computeStats_empty_amended :
    computeStats [] = .error (.typeError "Reduce of empty array with no initial value") ∧
    (∀ l : List EarthquakeData, l ≠ [] → ∃ s, computeStats l = .ok s) := by
  constructor
  · rfl
  · intro l h
    cases l with
    | nil => exact absurd rfl h
    | cons e0 rest => exact ⟨_, rfl⟩

/-- Witness for the amended C7: a concrete non-empty list succeeds. -/
theorem computeStats_empty_amended_witness :
    (computeStats [mkQuake "5.0" 5 "A"]).isOk = true := by
  obtain ⟨s, hs⟩ := computeStats_empty_amended.2 [mkQuake "5.0" 5 "A"] (by simp)
  rw [hs]
  rfl

/-! ## Fold lemmas for the statistics computation -/

/-- A fold whose step always returns one of its two arguments lands on a list
element (or the seed). -/
theorem foldl_choice_mem {α : Type} (f : α → α → α)
    (hf : ∀ a b, f a b = a ∨ f a b = b) (a : α) (l : List α) :
    l.foldl f a ∈ a :: l := by
  induction l generalizing a with
  | nil => exact List.mem_singleton.mpr rfl
  | cons b bs ih =>
    rw [List.foldl_cons]
    rcases List.mem_cons.mp (ih (f a b)) with h3 | h3
    · rcases hf a b with h4 | h4
      · rw [h3, h4]; exact List.mem_cons_self _ _
      · rw [h3, h4]; exact List.mem_cons_of_mem _ (List.mem_cons_self _ _)
    · exact List.mem_cons_of_mem _ (List.mem_cons_of_mem _ h3)

/-- A fold whose step weakly increases a measure `g` of both arguments
dominates every element (and the seed) in that measure. -/
theorem le_foldl_of_step {α β : Type} [Preorder β] (f : α → α → α) (g : α → β)
    (hf : ∀ a b, g a ≤ g (f a b) ∧ g b ≤ g (f a b)) (a : α) (l : List α) :
    ∀ y ∈ a :: l, g y ≤ g (l.foldl f a) := by
  induction l generalizing a with
  | nil =>
    intro y hy
    rw [List.mem_singleton] at hy
    subst hy
    exact le_refl _
  | cons b bs ih =>
    intro y hy
    rw [List.foldl_cons]
    rcases List.mem_cons.mp hy with h | h
    · subst h
      exact le_trans (hf y b).1 (ih (f y b) (f y b) (List.mem_cons_self _ _))
    · rcases List.mem_cons.mp h with h2 | h2
      · subst h2
        exact le_trans (hf a y).2 (ih (f a y) (f a y) (List.mem_cons_self _ _))
      · exact ih (f a b) y (List.mem_cons_of_mem _ h2)

/-- Dual of `le_foldl_of_step` for a weakly decreasing measure. -/
theorem foldl_le_of_step {α β : Type} [Preorder β] (f : α → α → α) (g : α → β)
    (hf : ∀ a b, g (f a b) ≤ g a ∧ g (f a b) ≤ g b) (a : α) (l : List α) :
    ∀ y ∈ a :: l, g (l.foldl f a) ≤ g y := by
  induction l generalizing a with
  | nil =>
    intro y hy
    rw [List.mem_singleton] at hy
    subst hy
    exact le_refl _
  | cons b bs ih =>
    intro y hy
    rw [List.foldl_cons]
    rcases List.mem_cons.mp hy with h | h
    · subst h
      exact le_trans (ih (f y b) (f y b) (List.mem_cons_self _ _)) (hf y b).1
    · rcases List.mem_cons.mp h with h2 | h2
      · subst h2
        exact le_trans (ih (f a y) (f a y) (List.mem_cons_self _ _)) (hf a y).2
      · exact ih (f a b) y (List.mem_cons_of_mem _ h2)

/-- The left fold of `+` from `0` is the list sum. -/
theorem jsSum_eq_sum (xs : List Rat) : jsSum xs = xs.sum := by
  have key : ∀ (l : List Rat) (a : Rat), l.foldl (fun x y => x + y) a = a + l.sum := by
    intro l
    induction l with
    | nil => intro a; simp
    | cons b bs ih =>
      intro a
      rw [List.foldl_cons, ih (a + b), List.sum_cons]
      ring
  unfold jsSum
  rw [key xs 0]
  ring

/-- The `strongest` reduce lands on a record of the list. -/
theorem strongestReduce_mem (a : EarthquakeData) (l : List EarthquakeData) :
    strongestReduce a l ∈ a :: l := by
  unfold strongestReduce
  apply foldl_choice_mem
  intro p q
  by_cases hpq : p.magnitudeNumeric < q.magnitudeNumeric
  · rw [if_pos hpq]; exact Or.inr rfl
  · rw [if_neg hpq]; exact Or.inl rfl

/-- The `strongest` reduce dominates every record's magnitude. -/
theorem strongestReduce_ub (a : EarthquakeData) (l : List EarthquakeData) :
    ∀ y ∈ a :: l, y.magnitudeNumeric ≤ (strongestReduce a l).magnitudeNumeric := by
  have hf : ∀ p q : EarthquakeData,
      p.magnitudeNumeric
          ≤ (if p.magnitudeNumeric < q.magnitudeNumeric then q else p).magnitudeNumeric ∧
      q.magnitudeNumeric
          ≤ (if p.magnitudeNumeric < q.magnitudeNumeric then q else p).magnitudeNumeric := by
    intro p q
    by_cases hpq : p.magnitudeNumeric < q.magnitudeNumeric
    · rw [if_pos hpq]
      exact ⟨le_of_lt hpq, le_refl _⟩
    · rw [if_neg hpq]
      exact ⟨le_refl _, le_of_not_lt hpq⟩
  unfold strongestReduce
  exact le_foldl_of_step
    (fun prev curr => if prev.magnitudeNumeric < curr.magnitudeNumeric then curr else prev)
    (fun r => r.magnitudeNumeric) hf a l

/-- The `strongest` reduce returns the first record attaining the maximal
magnitude: it is the first list element whose magnitude reaches the reduce's
magnitude. -/
theorem strongestReduce_find? (a : EarthquakeData) (rest : List EarthquakeData) :
    (a :: rest).find?
        (fun x => decide ((strongestReduce a rest).magnitudeNumeric ≤ x.magnitudeNumeric))
      = some (strongestReduce a rest) := by
  induction rest generalizing a with
  | nil =>
    simp [strongestReduce]
  | cons b bs ih =>
    have hstep : strongestReduce a (b :: bs)
        = strongestReduce (if a.magnitudeNumeric < b.magnitudeNumeric then b else a) bs := by
      unfold strongestReduce
      rw [List.foldl_cons]
    by_cases h : a.magnitudeNumeric < b.magnitudeNumeric
    · have hr : strongestReduce a (b :: bs) = strongestReduce b bs := by
        rw [hstep, if_pos h]
      rw [hr]
      have hb : b.magnitudeNumeric ≤ (strongestReduce b bs).magnitudeNumeric :=
        strongestReduce_ub b bs b (List.mem_cons_self _ _)
      have ha : ¬ ((strongestReduce b bs).magnitudeNumeric ≤ a.magnitudeNumeric) :=
        not_le.mpr (lt_of_lt_of_le h hb)
      rw [List.find?_cons_of_neg _ (by simpa using ha)]
      exact ih b
    · have hba : b.magnitudeNumeric ≤ a.magnitudeNumeric := le_of_not_lt h
      have hr : strongestReduce a (b :: bs) = strongestReduce a bs := by
        rw [hstep, if_neg h]
      rw [hr]
      by_cases hpa : (strongestReduce a bs).magnitudeNumeric ≤ a.magnitudeNumeric
      · have iha := ih a
        rw [List.find?_cons_of_pos _ (by simpa using hpa)] at iha
        injection iha with har
        rw [List.find?_cons_of_pos _ (by simpa using hpa)]
        exact congrArg some har
      · have iha := ih a
        rw [List.find?_cons_of_neg _ (by simpa using hpa)] at iha
        have hpb : ¬ ((strongestReduce a bs).magnitudeNumeric ≤ b.magnitudeNumeric) :=
          fun hb2 => hpa (le_trans hb2 hba)
        rw [List.find?_cons_of_neg _ (by simpa using hpa),
            List.find?_cons_of_neg _ (by simpa using hpb)]
        exact iha

/-- `Math.max(...)` over a non-empty spread lands on a list element. -/
theorem spreadMax_cons_mem (x : Rat) (xs : List Rat) : xs.foldl max x ∈ x :: xs :=
  foldl_choice_mem max max_choice x xs

/-- `Math.max(...)` over a non-empty spread dominates every element. -/
theorem le_spreadMax_cons (x : Rat) (xs : List Rat) :
    ∀ y ∈ x :: xs, y ≤ xs.foldl max x :=
  le_foldl_of_step max (fun r => r)
    (fun a b => ⟨le_max_left a b, le_max_right a b⟩) x xs

/-- `Math.min(...)` over a non-empty spread lands on a list element. -/
theorem spreadMin_cons_mem (x : Rat) (xs : List Rat) : xs.foldl min x ∈ x :: xs :=
  foldl_choice_mem min min_choice x xs

/-- `Math.min(...)` over a non-empty spread is below every element. -/
theorem spreadMin_cons_le (x : Rat) (xs : List Rat) :
    ∀ y ∈ x :: xs, xs.foldl min x ≤ y :=
  foldl_le_of_step min (fun r => r)
    (fun a b => ⟨min_le_left a b, min_le_right a b⟩) x xs

/-- **C8.** On a non-empty record sequence the statistics computation
succeeds; the magnitude max/min are attained magnitudes bounding all the
records' magnitudes and the average is their arithmetic mean; the depth
triple is computed the same way over `parseMagnitude` of each depth string
(the same lossy parse rule as `magnitudeNumeric`, `0` when unparsable); and
`strongest` is the first record attaining the maximal magnitude. -/
theorem computeStats_nonempty_spec (e0 : EarthquakeData) (rest : List EarthquakeData) :
    ∃ s, computeStats (e0 :: rest) = .ok s ∧
      (s.magnitude.max ∈ (e0 :: rest).map (fun r => r.magnitudeNumeric) ∧
        (∀ x ∈ (e0 :: rest).map (fun r => r.magnitudeNumeric), x ≤ s.magnitude.max) ∧
        s.magnitude.min ∈ (e0 :: rest).map (fun r => r.magnitudeNumeric) ∧
        (∀ x ∈ (e0 :: rest).map (fun r => r.magnitudeNumeric), s.magnitude.min ≤ x) ∧
        s.magnitude.average
          = ((e0 :: rest).map (fun r => r.magnitudeNumeric)).sum
              / ((e0 :: rest).length : Rat)) ∧
      (s.depth.max ∈ (e0 :: rest).map (fun r => parseMagnitude r.depth) ∧
        (∀ x ∈ (e0 :: rest).map (fun r => parseMagnitude r.depth), x ≤ s.depth.max) ∧
        s.depth.min ∈ (e0 :: rest).map (fun r => parseMagnitude r.depth) ∧
        (∀ x ∈ (e0 :: rest).map (fun r => parseMagnitude r.depth), s.depth.min ≤ x) ∧
        s.depth.average
          = ((e0 :: rest).map (fun r => parseMagnitude r.depth)).sum
              / ((e0 :: rest).length : Rat)) ∧
      (s.strongest ∈ e0 :: rest ∧
        (∀ x ∈ e0 :: rest, x.magnitudeNumeric ≤ s.strongest.magnitudeNumeric) ∧
        (e0 :: rest).find?
            (fun x => decide (s.strongest.magnitudeNumeric ≤ x.magnitudeNumeric))
          = some s.strongest) := by
  refine ⟨_, rfl, ?_, ?_, ?_⟩
  · simp only [List.map_cons, spreadMax, spreadMin, Option.getD_some]
    refine ⟨?_, ?_, ?_, ?_, ?_⟩
    · exact spreadMax_cons_mem _ _
    · exact le_spreadMax_cons _ _
    · exact spreadMin_cons_mem _ _
    · exact spreadMin_cons_le _ _
    · rw [jsSum_eq_sum]
      simp
  · simp only [List.map_cons, spreadMax, spreadMin, Option.getD_some]
    refine ⟨?_, ?_, ?_, ?_, ?_⟩
    · exact spreadMax_cons_mem _ _
    · exact le_spreadMax_cons _ _
    · exact spreadMin_cons_mem _ _
    · exact spreadMin_cons_le _ _
    · rw [jsSum_eq_sum]
      simp
  · exact ⟨strongestReduce_mem e0 rest, strongestReduce_ub e0 rest,
      strongestReduce_find? e0 rest⟩

/-- **C3.** On a table with at least one qualifying row, extraction succeeds
with a non-empty sequence: exactly the rows with at least 6 cells and all
four required fields non-empty after trimming survive, each contributing its
whole record, in row order. -/
theorem extract_qualifying_rows (rows : List (List Cell))
    (hne : ∃ r ∈ rows, qualifies r = true) :
    ∃ eqs, extract { table := some rows } = .ok eqs ∧
      eqs ≠ [] ∧
      eqs.length = (rows.filter qualifies).length ∧
      eqs = (rows.filter qualifies).map buildRecord := by
  obtain ⟨r0, hmem, hq⟩ := hne
  have hfilne : rows.filter qualifies ≠ [] :=
    List.ne_nil_of_mem (List.mem_filter.mpr ⟨hmem, hq⟩)
  have hlen : ¬ (rows.filterMap parseRow).length = 0 := by
    rw [filterMap_parseRow, List.length_map]
    exact fun h => hfilne (List.length_eq_zero.mp h)
  refine ⟨rows.filterMap parseRow, ?_, ?_, ?_, filterMap_parseRow rows⟩
  · unfold extract
    dsimp only
    rw [if_neg hlen]
  · rw [filterMap_parseRow]
    intro h
    exact hfilne (List.map_eq_nil_iff.mp h)
  · rw [filterMap_parseRow, List.length_map]

/-- Witness for C3: on a concrete table with a header row and one qualifying
row, extraction returns exactly the qualifying row's record. -/
theorem extract_qualifying_rows_witness :
    extract { table := some [shortRow, sampleRow] } = .ok [buildRecord sampleRow] := by
  obtain ⟨eqs, h1, h2, h3, h4⟩ :=
    extract_qualifying_rows [shortRow, sampleRow] ⟨sampleRow, by decide, by decide⟩
  rw [h4] at h1
  rw [h1]
  rfl

/-- `magDescLe` is transitive. -/
theorem magDescLe_trans : ∀ a b c : EarthquakeData,
    magDescLe a b → magDescLe b c → magDescLe a c := by
  intro a b c hab hbc
  simp only [magDescLe, decide_eq_true_eq] at *
  exact le_trans hbc hab

/-- `magDescLe` is total. -/
theorem magDescLe_total : ∀ a b : EarthquakeData, magDescLe a b || magDescLe b a := by
  intro a b
  simp only [magDescLe, Bool.or_eq_true, decide_eq_true_eq]
  exact le_total b.magnitudeNumeric a.magnitudeNumeric

/-- **C6.** For `1 ≤ n ≤ 50`, the top-by-magnitude operation returns a
sequence sorted in descending `magnitudeNumeric` order, of length
`min n (length input)`, forming a multiset subset of the input, and stable:
for each magnitude value the surviving records with that magnitude are an
initial segment, in original order, of the input's records with that
magnitude. -/
theorem topByMagnitude_spec (l : List EarthquakeData) (n : Nat)
    (hn : 1 ≤ n ∧ n ≤ 50) :
    (topByMagnitude l n).Pairwise
        (fun a b => b.magnitudeNumeric ≤ a.magnitudeNumeric) ∧
    (topByMagnitude l n).length = min n l.length ∧
    List.Subperm (topByMagnitude l n) l ∧
    (∀ m : Rat,
        (topByMagnitude l n).filter (fun r => decide (r.magnitudeNumeric = m))
          <+: l.filter (fun r => decide (r.magnitudeNumeric = m))) := by
  refine ⟨?_, ?_, ?_, ?_⟩
  · unfold topByMagnitude
    have hsorted := List.sorted_mergeSort magDescLe_trans magDescLe_total l
    have htake := hsorted.take (n := n)
    exact htake.imp fun hab => by
      simpa [magDescLe, decide_eq_true_eq] using hab
  · unfold topByMagnitude
    rw [List.length_take, List.length_mergeSort]
  · unfold topByMagnitude
    have h1 : List.Sublist ((List.mergeSort l magDescLe).take n) (List.mergeSort l magDescLe) :=
      List.take_sublist n (List.mergeSort l magDescLe)
    exact (h1.subperm).trans (List.mergeSort_perm l magDescLe).subperm
  · intro m
    unfold topByMagnitude
    have hperm := List.mergeSort_perm l magDescLe
    have hpair : (l.filter (fun r => decide (r.magnitudeNumeric = m))).Pairwise
        (fun a b => magDescLe a b) := by
      apply List.pairwise_of_forall_mem_list
      intro a ha b hb
      have ha2 := (List.mem_filter.mp ha).2
      have hb2 := (List.mem_filter.mp hb).2
      simp only [decide_eq_true_eq] at ha2 hb2
      simp [magDescLe, ha2, hb2]
    have hsub : List.Sublist (l.filter (fun r => decide (r.magnitudeNumeric = m)))
        (List.mergeSort l magDescLe) :=
      List.sublist_mergeSort magDescLe_trans magDescLe_total hpair
        (List.filter_sublist l)
    have hsub2 := hsub.filter (fun r => decide (r.magnitudeNumeric = m))
    simp only [List.filter_filter, Bool.and_self] at hsub2
    have hlen2 : ((List.mergeSort l magDescLe).filter
          (fun r => decide (r.magnitudeNumeric = m))).length
        = (l.filter (fun r => decide (r.magnitudeNumeric = m))).length :=
      (hperm.filter _).length_eq
    have heq : (List.mergeSort l magDescLe).filter (fun r => decide (r.magnitudeNumeric = m))
        = l.filter (fun r => decide (r.magnitudeNumeric = m)) :=
      (hsub2.eq_of_length hlen2.symm).symm
    have htakepre := List.take_prefix n (List.mergeSort l magDescLe)
    have hpre := List.IsPrefix.filter (fun r => decide (r.magnitudeNumeric = m)) htakepre
    rw [heq] at hpre
    exact hpre

/-- Witness for C6 at a concrete input: the top-1 of a two-record list. -/
theorem topByMagnitude_spec_witness :
    (topByMagnitude [mkQuake "2.0" 2 "A", mkQuake "5.0" 5 "B"] 1).Pairwise
        (fun a b => b.magnitudeNumeric ≤ a.magnitudeNumeric) ∧
    (topByMagnitude [mkQuake "2.0" 2 "A", mkQuake "5.0" 5 "B"] 1).length
      = min 1 [mkQuake "2.0" 2 "A", mkQuake "5.0" 5 "B"].length ∧
    List.Subperm (topByMagnitude [mkQuake "2.0" 2 "A", mkQuake "5.0" 5 "B"] 1)
      [mkQuake "2.0" 2 "A", mkQuake "5.0" 5 "B"] ∧
    ((topByMagnitude [mkQuake "2.0" 2 "A", mkQuake "5.0" 5 "B"] 1).filter
        (fun r => decide (r.magnitudeNumeric = 5))
      <+: [mkQuake "2.0" 2 "A", mkQuake "5.0" 5 "B"].filter
        (fun r => decide (r.magnitudeNumeric = 5))) :=
  have h := topByMagnitude_spec [mkQuake "2.0" 2 "A", mkQuake "5.0" 5 "B"] 1 (by decide)
  ⟨h.1, h.2.1, h.2.2.1, h.2.2.2 5⟩

end Phivolcs
